import Mathlib

/-!
Shallow embedding of the interview-coach retrieval and navigation engine
(`embeddings.py`, `coach.py`, `live_search.py`) and proofs of the spec's
claims about it.

Python strings are modelled as lists of characters (`Str`); Python's
`str.strip`, `str.split`, `str.lower`, the `in` substring test and slicing
are translated below as executable functions on `Str`.  Machine floats only
appear as similarity scores; since every claim is about the *ordering and
selection* of scores, scores are modelled as integers and the externally
produced embedding vectors as integer vectors.  External capabilities
(the embedding model, the generative model) are parameters: a query arrives
as its already-embedded vector, and the generative call is a function
`Str → Option Str` whose `none` result models a raised exception.
-/

namespace SecondBrain

/-- A Python string, modelled as its list of characters. -/
abbrev Str := List Char

/-- Python `str.lower()`. -/
def lower (s : Str) : Str := s.map Char.toLower

/-- Python `str.strip()`: drop leading and trailing whitespace. -/
def strip (s : Str) : Str :=
  ((s.dropWhile Char.isWhitespace).reverse.dropWhile Char.isWhitespace).reverse

/-- Python `needle in hay` for strings (`isPrefix` at some suffix;
the empty needle occurs in every string, as in Python). -/
def isPrefix : Str → Str → Bool
  | [], _ => true
  | _ :: _, [] => false
  | a :: as, b :: bs => a == b && isPrefix as bs

/-- Python `needle in hay` (substring occurrence test). -/
def substr (needle : Str) : Str → Bool
  | [] => needle.isEmpty
  | c :: t => isPrefix needle (c :: t) || substr needle t

/-- Python `s.split(sep)` for a one-character separator
(`"".split(c) = [""]`, and empty fields are kept, as in Python). -/
def splitOnChar (sep : Char) : Str → List Str
  | [] => [[]]
  | c :: cs =>
    if c = sep then [] :: splitOnChar sep cs
    else
      match splitOnChar sep cs with
      | [] => [[c]]
      | w :: ws => (c :: w) :: ws

/-- One folding step of Python's whitespace `str.split()` (no argument):
accumulates the words to the right of the current position. -/
def pywordsStep (c : Char) (acc : List Str × Str) : List Str × Str :=
  if c.isWhitespace then (if acc.2 = [] then acc.1 else acc.2 :: acc.1, [])
  else (acc.1, c :: acc.2)

/-- Python `s.split()` — split on runs of whitespace, dropping empty fields. -/
def pywords (s : Str) : List Str :=
  let r := s.foldr pywordsStep ([], [])
  if r.2 = [] then r.1 else r.2 :: r.1

/-- Decimal value of a digit run (used for the `Beat N` marker). -/
def digitsVal (ds : Str) : Nat := ds.foldl (fun n c => 10 * n + (c.toNat - 48)) 0

/-! ### Data model

A corpus chunk (`notion_sync.parse_story_into_beats` plus the embedding
attached by `embeddings.create_embeddings`), and the two embedding-free
dictionary shapes the engine derives from it: `search_full` results carry a
`score`, `get_story_beats` results do not. -/

/-- One story-beat chunk of the corpus, embedding attached. -/
structure Chunk where
  company : Str
  story : Str
  beat : Str
  tags : List Str
  text : Str
  path : List Str
  embedding : List Int
deriving DecidableEq, Inhabited

/-- A `search_full` hit: every chunk field except the embedding, plus the score. -/
structure ScoredChunk where
  company : Str
  story : Str
  beat : Str
  tags : List Str
  text : Str
  path : List Str
  score : Int
deriving DecidableEq, Inhabited

/-- A `get_story_beats` element: every chunk field except the embedding. -/
structure BeatChunk where
  company : Str
  story : Str
  beat : Str
  tags : List Str
  text : Str
  path : List Str
deriving DecidableEq, Inhabited

/-- Drop the embedding (`{k: v for k, v in c.items() if k != 'embedding'}`). -/
def stripChunk (c : Chunk) : BeatChunk :=
  ⟨c.company, c.story, c.beat, c.tags, c.text, c.path⟩

/-- Drop the embedding and attach the score (the `search_full` result dict). -/
def scoreChunk (c : Chunk) (score : Int) : ScoredChunk :=
  ⟨c.company, c.story, c.beat, c.tags, c.text, c.path, score⟩

/-! ### Retrieval engine (`embeddings.search` / `embeddings.search_full`)

`np.dot` over the stored embedding and the query vector, then
`np.argsort(scores)[-top_k:][::-1]`.  `np.argsort` sorts ascending with its
default introsort, which numpy documents as *not* stable: the relative order
of equal scores is implementation-defined (numpy only falls back to a stable
insertion sort below a small-array cutoff).  The model determinizes the sort
as the stable ascending sort — one admissible resolution, and the one numpy
takes below that cutoff.  Accordingly, no theorem below asserts a tie order
through `argsort` except at concrete inputs small enough to sit in numpy's
stable regime; properties meant to hold of the program on every corpus are
proved for *every* ascending resolution of the sort (see the quantified
tie-agnostic statement in the C3 section). -/

/-- Dot product of two integer vectors. -/
def dot (v w : List Int) : Int := (List.zipWith (fun a b => a * b) v w).sum

/-- The score list: one dot product per corpus chunk, in corpus order. -/
def chunkScores (qv : List Int) (chunks : List Chunk) : List Int :=
  chunks.map (fun c => dot qv c.embedding)

/-- Score of position `i` in a score list. -/
def scoreAt (s : List Int) (i : Nat) : Int := s.getD i 0

/-- The order `np.argsort` sorts positions by: ascending score, ties by
ascending position (stability of the underlying sort). -/
def argsortLe (s : List Int) (i j : Nat) : Prop :=
  scoreAt s i < scoreAt s j ∨ (scoreAt s i = scoreAt s j ∧ i ≤ j)

instance (s : List Int) : DecidableRel (argsortLe s) := fun i j => by
  unfold argsortLe; infer_instance

/-- `np.argsort(scores)`: positions sorted by ascending score.  numpy's
default sort is an unstable introsort, so the tie order fixed here — ties by
ascending position — is a determinization; it matches numpy only below its
small-array insertion-sort cutoff, and theorems rely on it only at such
small concrete inputs (tie-order-free facts are proved for every ascending
resolution instead). -/
def argsort (s : List Int) : List Nat :=
  List.insertionSort (argsortLe s) (List.range s.length)

/-- `np.argsort(scores)[-top_k:][::-1]`.  Python's `[-0:]` is the whole
list, and `[-k:]` for `k ≥ 1` is the last `min k len` elements. -/
def topIndices (s : List Int) (top_k : Nat) : List Nat :=
  let a := argsort s
  if top_k = 0 then a.reverse else (a.drop (a.length - top_k)).reverse

/-- `embeddings.search_full`: full chunk objects (minus embedding) with scores. -/
def search_full (qv : List Int) (chunks : List Chunk) (top_k : Nat) : List ScoredChunk :=
  let s := chunkScores qv chunks
  (topIndices s top_k).map (fun i => scoreChunk (chunks.getD i default) (scoreAt s i))

/-- A hit of the truncating `embeddings.search` variant. -/
structure SearchHit where
  score : Int
  path : Str
  text : Str
deriving DecidableEq, Inhabited

/-- `' > '.join(chunk['path'])`. -/
def joinPath (p : List Str) : Str := List.intercalate " > ".toList p

/-- `embeddings.search`: score, joined path, text truncated to 500 characters. -/
def search (qv : List Int) (chunks : List Chunk) (top_k : Nat) : List SearchHit :=
  let s := chunkScores qv chunks
  (topIndices s top_k).map
    (fun i => ⟨scoreAt s i, joinPath (chunks.getD i default).path, (chunks.getD i default).text.take 500⟩)

/-! ### Story beats (`embeddings.get_story_beats`) -/

/-- `re.match(r'Beat (\d+)', beat)`: a leading `Beat ` followed by at least
one digit; returns the digits' value. -/
def parseBeatNum (beat : Str) : Option Nat :=
  if isPrefix "Beat ".toList beat then
    let ds := (beat.drop 5).takeWhile Char.isDigit
    if ds.isEmpty then none else some (digitsVal ds)
  else none

/-- `beat_num` inside `get_story_beats`: the `Beat N` integer, or the
sentinel 999 when the label has no marker. -/
def beat_num (beat : Str) : Nat := (parseBeatNum beat).getD 999

/-- The key order `beats.sort(key=beat_num)` sorts by. -/
def beatLe (a b : BeatChunk) : Prop := beat_num a.beat ≤ beat_num b.beat

instance : DecidableRel beatLe := fun a b => by unfold beatLe; infer_instance

/-- `embeddings.get_story_beats`: all chunks of one `(company, story)`,
embedding stripped, stably sorted by `beat_num` (Python's `list.sort` is
stable; so is `insertionSort`). -/
def get_story_beats (company story : Str) (all_chunks : List Chunk) : List BeatChunk :=
  let beats := (all_chunks.filter
      (fun c => decide (c.company = company) && decide (c.story = story))).map stripChunk
  List.insertionSort beatLe beats

/-! ### Follow-up classification (`coach.is_followup`) -/

/-- `coach.is_followup(text, current_story)`: false without an active story;
true for at most 7 whitespace words; true on a case-insensitive tag,
company-name or story-name substring hit; otherwise false. -/
def is_followup (text : Str) (current_story : Option ScoredChunk) : Bool :=
  match current_story with
  | none => false
  | some cs =>
    let text_lower := lower text
    if (pywords text).length ≤ 7 then true
    else if cs.tags.any (fun tag => substr (lower tag) text_lower) then true
    else if substr (lower cs.company) text_lower then true
    else if substr (lower cs.story) text_lower then true
    else false

/-! ### Conversation state machine (`live_search.handle_question`)

`overlay._process` implements the identical transition on its own copy of
the state dictionary; the model below is the shared logic.  The printed /
broadcast display is outside the claims; the transition's observable
outcome is recorded in `Outcome`. -/

/-- The session state dictionary of `live_search.py` / `overlay.py`. -/
structure SessionState where
  story : Option ScoredChunk
  beats : List BeatChunk
  beat_index : Nat
deriving DecidableEq, Inhabited

/-- Which branch of `handle_question` ran: a follow-up advance (no retrieval),
a new story from retrieval, or the "no match found" status. -/
inductive Outcome where
  | followup
  | newStory
  | noMatch
deriving DecidableEq

/-- `live_search.handle_question`: follow-up with non-empty beats advances
`beat_index` (clamped at the last beat) with no retrieval; otherwise retrieve
with `top_k=1`, either reporting no match (state untouched) or installing the
top hit's story with `beat_index = 0`. -/
def handle_question (question : Str) (qv : List Int) (chunks : List Chunk)
    (st : SessionState) : SessionState × Outcome :=
  if is_followup question st.story && !st.beats.isEmpty then
    ({ st with beat_index :=
        if st.beat_index + 1 < st.beats.length then st.beat_index + 1 else st.beat_index },
     Outcome.followup)
  else
    match search_full qv chunks 1 with
    | [] => (st, Outcome.noMatch)
    | r :: _ =>
      ({ story := some r, beats := get_story_beats r.company r.story chunks, beat_index := 0 },
       Outcome.newStory)

/-! ### Response generator (`coach.py` text helpers) -/

/-- Terminal punctuation of `re.search(r'[.!?]', line)`. -/
def isPunct (c : Char) : Bool :=
  decide (c = '.') || decide (c = '!') || decide (c = '?')

/-- `line[:end.end()]` for the first `[.!?]` match: the prefix of the line up
to and including its first terminal-punctuation character, `none` when the
line has none. -/
def truncAtPunct : Str → Option Str
  | [] => none
  | c :: cs => if isPunct c then some [c] else (truncAtPunct cs).map (fun t => c :: t)

/-- The line filter shared by `_clean_beat` and `_extract_fallback`:
`none` for blank, `#`-header, `probe:` and table (`|`) lines, otherwise the
stripped line. -/
def cleanLine (line : Str) : Option Str :=
  let l := strip line
  if l.isEmpty || isPrefix "#".toList l || isPrefix "probe:".toList (lower l) then none
  else if l.contains '|' && decide (2 ≤ (splitOnChar '|' l).length) then none
  else some l

/-- `coach._clean_beat`: the retained stripped lines joined by single spaces. -/
def clean_beat (beat_text : Str) : Str :=
  List.intercalate [' '] ((splitOnChar '\n' beat_text).filterMap cleanLine)

/-- The loop of `coach._extract_fallback` over the split lines: the first
retained line longer than 20 characters, truncated at its first sentence
boundary when it has one; `""` when no line qualifies. -/
def fallbackScan : List Str → Str
  | [] => []
  | line :: rest =>
    if (strip line).isEmpty || isPrefix "#".toList (strip line)
        || isPrefix "probe:".toList (lower (strip line)) then
      fallbackScan rest
    else if (strip line).contains '|' && decide (2 ≤ (splitOnChar '|' (strip line)).length) then
      fallbackScan rest
    else if decide (20 < (strip line).length) then
      match truncAtPunct (strip line) with
      | some t => strip t
      | none => strip line
    else fallbackScan rest

/-- `coach._extract_fallback`. -/
def extract_fallback (beat_text : Str) : Str := fallbackScan (splitOnChar '\n' beat_text)

/-- `coach._beat_label` without the final strip:
`re.sub(r'^Beat \d+:\s*', '', beat_str)`. -/
def dropBeatPrefix (s : Str) : Str :=
  if isPrefix "Beat ".toList s then
    let r := s.drop 5
    let ds := r.takeWhile Char.isDigit
    if ds.isEmpty then s
    else
      match r.drop ds.length with
      | ':' :: r2 => r2.dropWhile Char.isWhitespace
      | _ => s
  else s

/-- `coach._beat_label`. -/
def beat_label (s : Str) : Str := strip (dropBeatPrefix s)

/-- Decimal rendering of a natural number, as a `Str`. -/
def natStr (n : Nat) : Str := (toString n).toList

/-- The response cache `coach._response_cache`: an association list from the
truncated-prefix key to the generated reply (newest binding first, which is
Python-dict-update equivalent for lookup). -/
abbrev RespCache := List ((Str × Str) × Str)

/-- `cache_key = (question[:80], beat_text[:120])`. -/
def cacheKey (question beat_text : Str) : Str × Str :=
  (question.take 80, beat_text.take 120)

/-- Lookup in the response cache. -/
def cacheLookup : RespCache → Str × Str → Option Str
  | [], _ => none
  | (k, v) :: rest, key => if k = key then some v else cacheLookup rest key

/-- Result of one `generate_response` call: the returned text, the cache
afterwards, and how many external generation calls were issued (0 or 1). -/
structure GenOut where
  text : Str
  cache : RespCache
  calls : Nat
deriving DecidableEq

/-- The `user_message` f-string of `coach.generate_response`. -/
def userMessage (question : Str) (chunk : ScoredChunk) (all_beats : List BeatChunk)
    (beat_index idx : Nat) (beat_text : Str) : Str :=
  let story_context₀ := clean_beat beat_text
  let remaining := (all_beats.drop (idx + 1)).map (fun b => clean_beat b.text)
  let story_context :=
    if remaining.isEmpty then story_context₀
    else story_context₀ ++ "\n\nRemainder of story (later beats):\n".toList ++
      List.intercalate ['\n'] ((all_beats.drop (idx + 1)).map
        (fun b => "- ".toList ++ beat_label b.beat ++ ": ".toList ++ (clean_beat b.text).take 120))
  "Interview question: \"".toList ++ question ++ "\"\n\nStory: ".toList ++
    chunk.company ++ " — ".toList ++ chunk.story ++
    "\nCurrent beat (".toList ++ natStr (beat_index + 1) ++ "/".toList ++
    natStr all_beats.length ++ "): ".toList ++ beat_label (all_beats.getD idx default).beat ++
    "\n\nNotes:\n".toList ++ story_context

/-- `coach.generate_response`.  The external generative capability is the
parameter `llm` (fixed persona prompt folded in); `llm m = none` models the
external call raising.  The source indexes `all_beats[min(beat_index,
len-1)]`, which presumes a non-empty beats list (every caller passes one);
the model totalises that read with `getD`.  On a cache hit the cached text
is returned with no external call; on a miss one external call is issued —
a successful result is stripped and cached, a raise falls back to
`extract_fallback` and caches nothing. -/
def generate_response (llm : Str → Option Str) (cache : RespCache) (question : Str)
    (chunk : ScoredChunk) (all_beats : List BeatChunk) (beat_index : Nat) : GenOut :=
  let idx := min beat_index (all_beats.length - 1)
  let current_beat := all_beats.getD idx default
  let beat_text := current_beat.text
  let key := cacheKey question beat_text
  match cacheLookup cache key with
  | some cached => ⟨cached, cache, 0⟩
  | none =>
    match llm (userMessage question chunk all_beats beat_index idx beat_text) with
    | some result => let r := strip result; ⟨r, (key, r) :: cache, 1⟩
    | none => ⟨extract_fallback beat_text, cache, 1⟩

/-! ### Properties of the retrieval selection -/

instance (s : List Int) : IsTotal Nat (argsortLe s) := ⟨fun i j => by
  unfold argsortLe
  rcases lt_trichotomy (scoreAt s i) (scoreAt s j) with h | h | h
  · exact Or.inl (Or.inl h)
  · rcases Nat.le_total i j with hij | hij
    · exact Or.inl (Or.inr ⟨h, hij⟩)
    · exact Or.inr (Or.inr ⟨h.symm, hij⟩)
  · exact Or.inr (Or.inl h)⟩

instance (s : List Int) : IsTrans Nat (argsortLe s) := ⟨fun i j k hij hjk => by
  unfold argsortLe at *
  rcases hij with h1 | ⟨e1, l1⟩ <;> rcases hjk with h2 | ⟨e2, l2⟩
  · exact Or.inl (h1.trans h2)
  · exact Or.inl (e2 ▸ h1)
  · exact Or.inl (e1 ▸ h2)
  · exact Or.inr ⟨e1.trans e2, l1.trans l2⟩⟩

lemma argsort_perm (s : List Int) : List.Perm (argsort s) (List.range s.length) :=
  List.perm_insertionSort _ _

lemma argsort_length (s : List Int) : (argsort s).length = s.length := by
  simpa using (argsort_perm s).length_eq

lemma argsort_sorted (s : List Int) : (argsort s).Pairwise (argsortLe s) :=
  List.sorted_insertionSort (argsortLe s) (List.range s.length)

lemma topIndices_sorted (s : List Int) (k : Nat) :
    (topIndices s k).Pairwise (fun i j => argsortLe s j i) := by
  unfold topIndices
  have h := argsort_sorted s
  split
  · exact List.pairwise_reverse.mpr h
  · exact List.pairwise_reverse.mpr (h.sublist (List.drop_sublist _ _))

lemma topIndices_length (s : List Int) (k : Nat) (hk : 1 ≤ k) :
    (topIndices s k).length = min k s.length := by
  unfold topIndices
  rw [if_neg (by omega)]
  rw [List.length_reverse, List.length_drop, argsort_length]
  omega

lemma topIndices_perm (s : List Int) (k : Nat) (hk1 : 1 ≤ k) (hk : s.length ≤ k) :
    List.Perm (topIndices s k) (List.range s.length) := by
  unfold topIndices
  rw [if_neg (by omega)]
  have h0 : (argsort s).length - k = 0 := by rw [argsort_length]; omega
  rw [h0, List.drop_zero]
  exact (List.reverse_perm _).trans (argsort_perm s)

lemma argsortLe_score_le {s : List Int} {i j : Nat} (h : argsortLe s i j) :
    scoreAt s i ≤ scoreAt s j := by
  rcases h with h | ⟨h, _⟩
  · exact le_of_lt h
  · exact le_of_eq h

lemma range_map_scoreChunk (qv : List Int) (chunks : List Chunk) :
    (List.range chunks.length).map
        (fun i => scoreChunk (chunks.getD i default) (scoreAt (chunkScores qv chunks) i))
      = chunks.map (fun c => scoreChunk c (dot qv c.embedding)) := by
  induction chunks with
  | nil => rfl
  | cons c l ih =>
    simp only [List.length_cons, List.range_succ_eq_map, List.map_cons, List.map_map]
    refine congrArg₂ _ rfl ?_
    have hco : ((fun i => scoreChunk ((c :: l).getD i default)
          (scoreAt (chunkScores qv (c :: l)) i)) ∘ Nat.succ)
        = (fun i => scoreChunk (l.getD i default) (scoreAt (chunkScores qv l) i)) := by
      funext i; rfl
    rw [hco, ih]

lemma topIndices_empty (qv : List Int) (k : Nat) :
    topIndices (chunkScores qv []) k = [] := by
  unfold topIndices
  split <;> simp [argsort, chunkScores]

/-- **C2.** For every query vector, corpus and `k ≥ 1`, both `search_full` and
`search` return at most `min k (corpus length)` results, sorted by descending
score; an empty corpus yields the empty result (no error); `k` at least the
corpus size yields all chunks (as a permutation of the corpus, stripped and
scored — sorted by the previous conjunct); and the output is a deterministic
function of `(query, corpus, k)`. -/
theorem c2_search_contract (qv : List Int) (chunks : List Chunk) (k : Nat) (hk : 1 ≤ k) :
    (search_full qv chunks k).length = min k chunks.length ∧
    (search_full qv chunks k).Pairwise (fun a b => b.score ≤ a.score) ∧
    (search qv chunks k).length = min k chunks.length ∧
    (search qv chunks k).Pairwise (fun a b => b.score ≤ a.score) ∧
    (chunks = [] → search_full qv chunks k = [] ∧ search qv chunks k = []) ∧
    (chunks.length ≤ k →
      List.Perm (search_full qv chunks k) (chunks.map (fun c => scoreChunk c (dot qv c.embedding)))) ∧
    (∀ qv' chunks' k', qv = qv' → chunks = chunks' → k = k' →
      search_full qv chunks k = search_full qv' chunks' k' ∧
      search qv chunks k = search qv' chunks' k') := by
  have hslen : (chunkScores qv chunks).length = chunks.length := List.length_map _ _
  refine ⟨?_, ?_, ?_, ?_, ?_, ?_, ?_⟩
  · simp only [search_full, List.length_map]
    rw [topIndices_length _ _ hk, hslen]
  · simp only [search_full]
    rw [List.pairwise_map]
    exact (topIndices_sorted (chunkScores qv chunks) k).imp (fun h => argsortLe_score_le h)
  · simp only [search, List.length_map]
    rw [topIndices_length _ _ hk, hslen]
  · simp only [search]
    rw [List.pairwise_map]
    exact (topIndices_sorted (chunkScores qv chunks) k).imp (fun h => argsortLe_score_le h)
  · intro h
    subst h
    constructor <;> · simp only [search_full, search]; rw [topIndices_empty]; rfl
  · intro h
    have h1 : List.Perm (topIndices (chunkScores qv chunks) k) (List.range chunks.length) := by
      have := topIndices_perm (chunkScores qv chunks) k hk (by rw [hslen]; exact h)
      rwa [hslen] at this
    have h2 := h1.map
      (fun i => scoreChunk (chunks.getD i default) (scoreAt (chunkScores qv chunks) i))
    rw [range_map_scoreChunk qv chunks] at h2
    exact h2
  · intro qv' chunks' k' h1 h2 h3
    subst h1; subst h2; subst h3
    exact ⟨rfl, rfl⟩

/-- Sample chunk for the C2 witness. -/
def c2chunk : Chunk :=
  ⟨"Acme".toList, "Funding Round".toList, "Beat 1: start".toList, [],
   "beat text".toList, [], [1]⟩

/-- Witness for C2 at a one-chunk corpus and `k = 1`. -/
theorem c2_search_contract_witness :
    (search_full [2] [c2chunk] 1).length = min 1 1 ∧
    (search_full [2] [c2chunk] 1).Pairwise (fun a b => b.score ≤ a.score) :=
  ⟨(c2_search_contract [2] [c2chunk] 1 (by decide)).1,
   (c2_search_contract [2] [c2chunk] 1 (by decide)).2.1⟩

/-- Chunks with equal scores against the query `[1]`, for the C3 counterexample. -/
def c3chunkA : Chunk :=
  ⟨"co".toList, "st".toList, "Beat 1: a".toList, [], "a".toList, [], [1]⟩

/-- Second equal-scored chunk for the C3 counterexample. -/
def c3chunkB : Chunk :=
  ⟨"co".toList, "st".toList, "Beat 2: b".toList, [], "b".toList, [], [1]⟩

/-- **C3, counterexample.** Two chunks with equal dot-product score, both in
the returned top 2: the chunk appearing *later* in the corpus comes first in
the result, refuting the claimed earlier-first tie-break. -/
theorem c3_counterexample :
    dot [1] c3chunkA.embedding = dot [1] c3chunkB.embedding ∧
    (search_full [1] [c3chunkA, c3chunkB] 2).map (fun r => r.text)
      = ["b".toList, "a".toList] := by
  decide

/-- **C3, amended.** The program's selection does not break ties by corpus
order — nor by any fixed rule: it sorts positions ascending by score with
`np.argsort`'s default unstable sort and reverses, which pins the descending
*score* order but leaves the relative order of equal-scored chunks
implementation-defined.  Formally: (1) for **every** admissible ascending
resolution `idxs` of the sort (a permutation of the positions, ascending in
score), the `[-k:][::-1]` selection is descending in score — this is all the
construction guarantees; (2) the model's `argsort` is one such resolution;
(3) ascending sortedness does not determine the tie order: on the
equal-score list `[1, 1]` both position orders `[0, 1]` and `[1, 0]` are
admissible; and (4) at the two-chunk counterexample corpus — small enough
that numpy's argsort is its stable insertion sort — the tie resolves to
*reverse* corpus order, the later chunk first. -/
theorem c3_ties_implementation_defined (s : List Int) (k : Nat) (idxs : List Nat)
    (hperm : List.Perm idxs (List.range s.length))
    (hsort : idxs.Pairwise (fun i j => scoreAt s i ≤ scoreAt s j)) :
    ((idxs.drop (idxs.length - k)).reverse.map (scoreAt s)).Pairwise (fun a b => b ≤ a) ∧
    (List.Perm (argsort s) (List.range s.length) ∧
      (argsort s).Pairwise (fun i j => scoreAt s i ≤ scoreAt s j)) ∧
    (([0, 1] : List Nat).Pairwise (fun i j => scoreAt [1, 1] i ≤ scoreAt [1, 1] j) ∧
      List.Perm ([0, 1] : List Nat) (List.range 2) ∧
      ([1, 0] : List Nat).Pairwise (fun i j => scoreAt [1, 1] i ≤ scoreAt [1, 1] j) ∧
      List.Perm ([1, 0] : List Nat) (List.range 2)) ∧
    (search_full [1] [c3chunkA, c3chunkB] 2).map (fun r => r.text)
      = ["b".toList, "a".toList] := by
  refine ⟨?_,
    ⟨argsort_perm s, (argsort_sorted s).imp (fun h => argsortLe_score_le h)⟩,
    by decide, by decide⟩
  rw [List.pairwise_map]
  exact List.pairwise_reverse.mpr (hsort.sublist (List.drop_sublist _ _))

/-- Witness for the amended C3, at the equal-score list `[1, 1]`, `k = 2`,
and the ascending resolution `[0, 1]`. -/
theorem c3_ties_implementation_defined_witness :
    ((([0, 1] : List Nat).drop (([0, 1] : List Nat).length - 2)).reverse.map
        (scoreAt [1, 1])).Pairwise (fun a b => b ≤ a) ∧
    (List.Perm (argsort [1, 1]) (List.range 2) ∧
      (argsort [1, 1]).Pairwise (fun i j => scoreAt [1, 1] i ≤ scoreAt [1, 1] j)) ∧
    (([0, 1] : List Nat).Pairwise (fun i j => scoreAt [1, 1] i ≤ scoreAt [1, 1] j) ∧
      List.Perm ([0, 1] : List Nat) (List.range 2) ∧
      ([1, 0] : List Nat).Pairwise (fun i j => scoreAt [1, 1] i ≤ scoreAt [1, 1] j) ∧
      List.Perm ([1, 0] : List Nat) (List.range 2)) ∧
    (search_full [1] [c3chunkA, c3chunkB] 2).map (fun r => r.text)
      = ["b".toList, "a".toList] :=
  c3_ties_implementation_defined [1, 1] 2 [0, 1] (by decide) (by decide)

/-! ### Properties of `get_story_beats` and the state machine -/

instance : IsTotal BeatChunk beatLe := ⟨fun _ _ => Nat.le_total _ _⟩

instance : IsTrans BeatChunk beatLe := ⟨fun _ _ _ => Nat.le_trans⟩

lemma get_story_beats_perm (company story : Str) (chunks : List Chunk) :
    List.Perm (get_story_beats company story chunks)
      ((chunks.filter
          (fun c => decide (c.company = company) && decide (c.story = story))).map stripChunk) :=
  List.perm_insertionSort _ _

lemma get_story_beats_sorted (company story : Str) (chunks : List Chunk) :
    (get_story_beats company story chunks).Pairwise beatLe :=
  List.sorted_insertionSort beatLe _

lemma handle_question_followup (q : Str) (qv : List Int) (chunks : List Chunk)
    (st : SessionState) (hF : is_followup q st.story = true) (hB : st.beats ≠ []) :
    handle_question q qv chunks st =
      ({ st with beat_index :=
          if st.beat_index + 1 < st.beats.length then st.beat_index + 1 else st.beat_index },
       Outcome.followup) := by
  have hc : (is_followup q st.story && !st.beats.isEmpty) = true := by
    simp [hF, List.isEmpty_iff, hB]
  simp [handle_question, hc]

/-- **C1.** In a session state with non-empty beats and a question classified
as a follow-up of the active chunk, `handle_question` advances `beat_index`
by exactly 1 when a next beat exists and leaves it unchanged otherwise (no
error on the last beat); the active chunk and the beats list are unchanged,
and no retrieval call is made — the result does not depend on the query
vector or the corpus handed to the retrieval engine. -/
theorem c1_followup_advance (q : Str) (qv qv' : List Int) (chunks chunks' : List Chunk)
    (st : SessionState) (hB : st.beats ≠ []) (hF : is_followup q st.story = true) :
    (handle_question q qv chunks st).1.story = st.story ∧
    (handle_question q qv chunks st).1.beats = st.beats ∧
    (st.beat_index + 1 < st.beats.length →
      (handle_question q qv chunks st).1.beat_index = st.beat_index + 1) ∧
    (¬ st.beat_index + 1 < st.beats.length →
      (handle_question q qv chunks st).1.beat_index = st.beat_index) ∧
    (handle_question q qv chunks st).2 = Outcome.followup ∧
    handle_question q qv chunks st = handle_question q qv' chunks' st := by
  rw [handle_question_followup q qv chunks st hF hB,
      handle_question_followup q qv' chunks' st hF hB]
  refine ⟨rfl, rfl, ?_, ?_, rfl, rfl⟩
  · intro h; simp [if_pos h]
  · intro h; simp [if_neg h]

/-- Active story of the C1 witness state. -/
def c1story : ScoredChunk :=
  ⟨"Acme".toList, "Funding Round".toList, "Beat 1: start".toList, [],
   "beat one".toList, [], 5⟩

/-- Beats of the C1 witness state. -/
def c1beats : List BeatChunk :=
  [⟨"Acme".toList, "Funding Round".toList, "Beat 1: start".toList, [], "beat one".toList, []⟩,
   ⟨"Acme".toList, "Funding Round".toList, "Beat 2: end".toList, [], "beat two".toList, []⟩]

/-- The C1 witness state: in-story, on the first of two beats. -/
def c1state : SessionState := ⟨some c1story, c1beats, 0⟩

/-- An unrelated corpus chunk, to witness retrieval-independence in C1. -/
def c1chunk : Chunk :=
  ⟨"Other".toList, "Story".toList, "Beat 1: x".toList, [], "other text".toList, [], [9]⟩

/-- Witness for C1: a three-word follow-up advances the witness state from
beat 0 to beat 1, independently of query vector and corpus. -/
theorem c1_followup_advance_witness :
    (handle_question "what happened next?".toList [] [] c1state).1.story = c1state.story ∧
    (handle_question "what happened next?".toList [] [] c1state).1.beats = c1state.beats ∧
    (handle_question "what happened next?".toList [] [] c1state).1.beat_index
      = c1state.beat_index + 1 ∧
    (handle_question "what happened next?".toList [] [] c1state).2 = Outcome.followup ∧
    handle_question "what happened next?".toList [] [] c1state
      = handle_question "what happened next?".toList [3] [c1chunk] c1state := by
  have h := c1_followup_advance "what happened next?".toList [] [3] [] [c1chunk] c1state
    (by decide) (by decide)
  exact ⟨h.1, h.2.1, h.2.2.1 (by decide), h.2.2.2.2.1, h.2.2.2.2.2⟩

/-- **C4.** For a question not classified as a follow-up (or with no active
story, i.e. empty beats), `handle_question` retrieves with `k = 1`: an empty
retrieval result leaves the session state completely unchanged and signals
"no match"; otherwise the state becomes the top hit as active chunk, the
hit's `(company, story)` beats (a stripped permutation of exactly the
matching corpus chunks, sorted by beat key) and `beat_index = 0`. -/
theorem c4_new_topic (q : Str) (qv : List Int) (chunks : List Chunk) (st : SessionState)
    (h : ¬ (is_followup q st.story = true ∧ st.beats ≠ [])) :
    (search_full qv chunks 1 = [] → handle_question q qv chunks st = (st, Outcome.noMatch)) ∧
    (∀ r rs, search_full qv chunks 1 = r :: rs →
      handle_question q qv chunks st =
        (⟨some r, get_story_beats r.company r.story chunks, 0⟩, Outcome.newStory) ∧
      List.Perm (get_story_beats r.company r.story chunks)
        ((chunks.filter
            (fun c => decide (c.company = r.company) && decide (c.story = r.story))).map
          stripChunk) ∧
      (get_story_beats r.company r.story chunks).Pairwise beatLe) := by
  have hc : (is_followup q st.story && !st.beats.isEmpty) = false := by
    rcases Bool.eq_false_or_eq_true (is_followup q st.story) with hF | hF
    · have hbe : st.beats = [] := by
        by_contra hne
        exact h ⟨hF, hne⟩
      simp [hbe]
    · simp [hF]
  constructor
  · intro he
    simp [handle_question, hc, he]
  · intro r rs he
    refine ⟨?_, get_story_beats_perm _ _ _, get_story_beats_sorted _ _ _⟩
    simp [handle_question, hc, he]

/-- Corpus chunk for the C4 witness. -/
def c4chunk : Chunk :=
  ⟨"Acme".toList, "Funding Round".toList, "Beat 1: start".toList,
   ["disagreement".toList], "beat text".toList, [], [1]⟩

/-- The C4 witness question (idle state, so never a follow-up). -/
def c4q : Str := "Tell me about a time you disagreed with someone".toList

/-- The C4 witness state: idle. -/
def c4state : SessionState := ⟨none, [], 0⟩

/-- Witness for C4: from the idle state the retrieval hit installs the new
story with `beat_index = 0`. -/
theorem c4_new_topic_witness :
    handle_question c4q [1] [c4chunk] c4state =
      (⟨some (scoreChunk c4chunk 1),
        get_story_beats (scoreChunk c4chunk 1).company (scoreChunk c4chunk 1).story [c4chunk],
        0⟩, Outcome.newStory) ∧
    List.Perm
      (get_story_beats (scoreChunk c4chunk 1).company (scoreChunk c4chunk 1).story [c4chunk])
      (([c4chunk].filter
          (fun c => decide (c.company = (scoreChunk c4chunk 1).company) &&
            decide (c.story = (scoreChunk c4chunk 1).story))).map stripChunk) ∧
    (get_story_beats (scoreChunk c4chunk 1).company (scoreChunk c4chunk 1).story
      [c4chunk]).Pairwise beatLe :=
  (c4_new_topic c4q [1] [c4chunk] c4state (by decide)).2 (scoreChunk c4chunk 1) [] (by decide)

/-- A chunk whose beat label has a `Beat N` marker with `N = 1000`. -/
def c8marked : Chunk :=
  ⟨"co".toList, "st".toList, "Beat 1000: end".toList, [], "x".toList, [], []⟩

/-- A chunk of the same story whose beat label has no `Beat N` marker. -/
def c8unmarked : Chunk :=
  ⟨"co".toList, "st".toList, "intro".toList, [], "y".toList, [], []⟩

/-- **C8, counterexample.** A chunk *with* a `Beat 1000` marker sorts after
the marker-less chunk (sentinel key 999), refuting the claim that every
marker-less chunk is placed after every chunk that has a marker. -/
theorem c8_counterexample :
    (parseBeatNum c8marked.beat).isSome = true ∧
    (parseBeatNum c8unmarked.beat).isSome = false ∧
    (get_story_beats "co".toList "st".toList [c8marked, c8unmarked]).map (fun b => b.beat)
      = [c8unmarked.beat, c8marked.beat] := by
  decide

/-- **C8, amended.** `get_story_beats` returns exactly the chunks matching
the `(company, story)` pair (a permutation of the filtered corpus, each with
its embedding removed), ordered ascending by the key that maps a leading
`Beat N` marker to `N` and a marker-less label to the sentinel 999 — so
marker-less chunks come after all marked chunks with `N < 999` but not after
marked chunks with `N ≥ 999`. -/
theorem c8_beats_sorted (company story : Str) (chunks : List Chunk) :
    List.Perm (get_story_beats company story chunks)
      ((chunks.filter
          (fun c => decide (c.company = company) && decide (c.story = story))).map stripChunk) ∧
    (get_story_beats company story chunks).Pairwise
      (fun a b => beat_num a.beat ≤ beat_num b.beat) :=
  ⟨get_story_beats_perm company story chunks, get_story_beats_sorted company story chunks⟩

/-! ### The follow-up policy (claims C7, C10) -/

lemma substr_nil (h : Str) : substr [] h = true := by
  cases h with
  | nil => rfl
  | cons c t => simp [substr, isPrefix]

lemma is_followup_some (text : Str) (cs : ScoredChunk) :
    is_followup text (some cs) =
      (decide ((pywords text).length ≤ 7) ||
       cs.tags.any (fun tag => substr (lower tag) (lower text)) ||
       substr (lower cs.company) (lower text) ||
       substr (lower cs.story) (lower text)) := by
  unfold is_followup
  by_cases h1 : (pywords text).length ≤ 7
  · simp [h1]
  · rcases Bool.eq_false_or_eq_true (cs.tags.any fun tag => substr (lower tag) (lower text))
      with h2 | h2 <;>
    rcases Bool.eq_false_or_eq_true (substr (lower cs.company) (lower text)) with h3 | h3 <;>
    rcases Bool.eq_false_or_eq_true (substr (lower cs.story) (lower text)) with h4 | h4 <;>
    simp [h1, h2, h3, h4]

/-- **C7.** `is_followup` returns false with no active chunk; with an active
chunk it returns true exactly when the question has at most 7
whitespace-delimited words, or some tag of the active chunk occurs as a
case-insensitive substring of the question, or the active chunk's company
name or story name occurs as a case-insensitive substring of the question;
otherwise false. -/
theorem c7_is_followup_policy (text : Str) (cs : ScoredChunk) :
    is_followup text none = false ∧
    (is_followup text (some cs) = true ↔
      ((pywords text).length ≤ 7 ∨
       (∃ tag ∈ cs.tags, substr (lower tag) (lower text) = true) ∨
       substr (lower cs.company) (lower text) = true ∨
       substr (lower cs.story) (lower text) = true)) := by
  refine ⟨rfl, ?_⟩
  rw [is_followup_some]
  simp [List.any_eq_true, or_assoc]

/-- **C10.** An active chunk whose `company` (or `story`) field is the empty
string — which is also how an absent field is read, via `get` with default
`""` — makes `is_followup` return true for *every* question text, since the
empty string is a substring of everything; consequently every subsequent
utterance takes the follow-up branch of `handle_question`, a branch
independent of the retrieval engine's inputs. -/
theorem c10_empty_name_always_followup (text : Str) (cs : ScoredChunk)
    (h : cs.company = [] ∨ cs.story = []) :
    is_followup text (some cs) = true ∧
    (∀ (qv qv' : List Int) (chunks chunks' : List Chunk) (st : SessionState),
      st.story = some cs → st.beats ≠ [] →
      (handle_question text qv chunks st).2 = Outcome.followup ∧
      handle_question text qv chunks st = handle_question text qv' chunks' st) := by
  have hf : is_followup text (some cs) = true := by
    rw [is_followup_some]
    rcases h with h | h <;> simp [h, lower, substr_nil]
  refine ⟨hf, ?_⟩
  intro qv qv' chunks chunks' st hst hne
  have hf' : is_followup text st.story = true := by rw [hst]; exact hf
  rw [handle_question_followup text qv chunks st hf' hne,
      handle_question_followup text qv' chunks' st hf' hne]
  exact ⟨rfl, rfl⟩

/-- Active story with an empty `company` field, for the C10 witness. -/
def c10story : ScoredChunk :=
  ⟨[], "some story".toList, "Beat 1: b".toList, [], "text".toList, [], 2⟩

/-- Beats of the C10 witness state. -/
def c10beats : List BeatChunk :=
  [⟨[], "some story".toList, "Beat 1: b".toList, [], "text".toList, []⟩]

/-- The C10 witness state. -/
def c10state : SessionState := ⟨some c10story, c10beats, 0⟩

/-- A ten-word question, so none of the other follow-up rules could match
trivially by word count. -/
def c10q : Str :=
  "please compare your current approach against industry baselines in detail".toList

/-- An unrelated corpus chunk for the C10 retrieval-independence witness. -/
def c10chunk : Chunk :=
  ⟨"Zeta".toList, "Launch".toList, "Beat 1: z".toList, [], "zzz".toList, [], [4]⟩

/-- Witness for C10: the empty-company story classifies a ten-word unrelated
question as a follow-up and bypasses retrieval. -/
theorem c10_empty_name_always_followup_witness :
    is_followup c10q (some c10story) = true ∧
    (handle_question c10q [] [] c10state).2 = Outcome.followup ∧
    handle_question c10q [] [] c10state = handle_question c10q [4] [c10chunk] c10state := by
  have h := c10_empty_name_always_followup c10q c10story (Or.inl rfl)
  exact ⟨h.1, (h.2 [] [4] [] [c10chunk] c10state rfl (by decide)).1,
    (h.2 [] [4] [] [c10chunk] c10state rfl (by decide)).2⟩

/-! ### The generator layer (claims C5, C6, C9) -/

lemma strip_all_ws {s : Str} (h : strip s = []) : ∀ c ∈ s, c.isWhitespace = true := by
  unfold strip at h
  rw [List.reverse_eq_nil_iff, List.dropWhile_eq_nil_iff] at h
  intro c hc
  have hsplit : c ∈ s.takeWhile Char.isWhitespace ++ s.dropWhile Char.isWhitespace := by
    rw [List.takeWhile_append_dropWhile]
    exact hc
  rcases List.mem_append.mp hsplit with h1 | h1
  · exact List.mem_takeWhile_imp h1
  · exact h c (List.mem_reverse.mpr h1)

lemma strip_ne_nil {s : Str} (c : Char) (hc : c ∈ s) (hw : c.isWhitespace = false) :
    strip s ≠ [] := by
  intro h
  have := strip_all_ws h c hc
  rw [hw] at this
  exact Bool.false_ne_true this

lemma truncAtPunct_mem_punct :
    ∀ {l t : Str}, truncAtPunct l = some t → ∃ c ∈ t, isPunct c = true := by
  intro l
  induction l with
  | nil => intro t h; cases h
  | cons c cs ih =>
    intro t h
    unfold truncAtPunct at h
    by_cases hp : isPunct c = true
    · rw [if_pos hp] at h
      cases h
      exact ⟨c, List.mem_singleton.mpr rfl, hp⟩
    · rw [if_neg hp] at h
      cases hm : truncAtPunct cs with
      | none => rw [hm] at h; cases h
      | some t' =>
        rw [hm] at h
        cases h
        obtain ⟨d, hd, hdp⟩ := ih hm
        exact ⟨d, List.mem_cons_of_mem _ hd, hdp⟩

lemma isPunct_not_ws {c : Char} (h : isPunct c = true) : c.isWhitespace = false := by
  simp only [isPunct, Bool.or_eq_true, decide_eq_true_eq] at h
  rcases h with (h | h) | h <;> subst h <;> decide

/-- A line `_extract_fallback` would return from: retained by the skip
filters and longer than 20 characters. -/
def qualifying_line (line : Str) : Bool :=
  !((strip line).isEmpty || isPrefix "#".toList (strip line)
      || isPrefix "probe:".toList (lower (strip line))) &&
  !((strip line).contains '|' && decide (2 ≤ (splitOnChar '|' (strip line)).length)) &&
  decide (20 < (strip line).length)

lemma fallbackScan_ne_nil_iff (xs : List Str) :
    fallbackScan xs ≠ [] ↔ ∃ line ∈ xs, qualifying_line line = true := by
  induction xs with
  | nil => simp [fallbackScan]
  | cons line rest ih =>
    simp only [fallbackScan]
    split
    case isTrue hA =>
      have hq : qualifying_line line = false := by
        unfold qualifying_line; rw [hA]; simp
      simp [List.mem_cons, hq, ih]
    case isFalse hA =>
      have hA' := Bool.eq_false_iff.mpr hA
      split
      case isTrue hB =>
        have hq : qualifying_line line = false := by
          simp only [qualifying_line, hB, Bool.not_true, Bool.and_false, Bool.false_and]
        simp [List.mem_cons, hq, ih]
      case isFalse hB =>
        have hB' := Bool.eq_false_iff.mpr hB
        split
        case isFalse hC =>
          have hC' := Bool.eq_false_iff.mpr hC
          have hq : qualifying_line line = false := by
            simp only [qualifying_line, hC', Bool.and_false]
          simp [List.mem_cons, hq, ih]
        case isTrue hC =>
          have hq : qualifying_line line = true := by
            unfold qualifying_line; rw [hA', hB', hC]; simp
          have hL : (match truncAtPunct (strip line) with
              | some t => strip t
              | none => strip line) ≠ [] := by
            cases hm : truncAtPunct (strip line) with
            | none =>
              simp only [hm]
              intro h0
              have h20 := of_decide_eq_true hC
              rw [h0] at h20
              simp at h20
            | some t =>
              simp only [hm]
              obtain ⟨d, hd, hdp⟩ := truncAtPunct_mem_punct hm
              exact strip_ne_nil d hd (isPunct_not_ws hdp)
          constructor
          · intro _
            exact ⟨line, List.mem_cons_self _ _, hq⟩
          · intro _
            exact hL

lemma extract_fallback_ne_nil_iff (beat_text : Str) :
    extract_fallback beat_text ≠ [] ↔
      ∃ line ∈ splitOnChar '\n' beat_text, qualifying_line line = true :=
  fallbackScan_ne_nil_iff _

lemma generate_response_hit (llm : Str → Option Str) (cache : RespCache) (q : Str)
    (chunk : ScoredChunk) (beats : List BeatChunk) (bi : Nat) (t : Str)
    (h : cacheLookup cache
        (cacheKey q (beats.getD (min bi (beats.length - 1)) default).text) = some t) :
    generate_response llm cache q chunk beats bi = ⟨t, cache, 0⟩ := by
  simp only [generate_response]
  rw [h]

lemma generate_response_miss_some (llm : Str → Option Str) (cache : RespCache) (q : Str)
    (chunk : ScoredChunk) (beats : List BeatChunk) (bi : Nat) (v : Str)
    (hmiss : cacheLookup cache
        (cacheKey q (beats.getD (min bi (beats.length - 1)) default).text) = none)
    (hllm : llm (userMessage q chunk beats bi (min bi (beats.length - 1))
        (beats.getD (min bi (beats.length - 1)) default).text) = some v) :
    generate_response llm cache q chunk beats bi =
      ⟨strip v,
       (cacheKey q (beats.getD (min bi (beats.length - 1)) default).text, strip v) :: cache,
       1⟩ := by
  simp only [generate_response]
  rw [hmiss, hllm]

lemma generate_response_miss_none (llm : Str → Option Str) (cache : RespCache) (q : Str)
    (chunk : ScoredChunk) (beats : List BeatChunk) (bi : Nat)
    (hmiss : cacheLookup cache
        (cacheKey q (beats.getD (min bi (beats.length - 1)) default).text) = none)
    (hllm : llm (userMessage q chunk beats bi (min bi (beats.length - 1))
        (beats.getD (min bi (beats.length - 1)) default).text) = none) :
    generate_response llm cache q chunk beats bi =
      ⟨extract_fallback (beats.getD (min bi (beats.length - 1)) default).text, cache, 1⟩ := by
  simp only [generate_response]
  rw [hmiss, hllm]

/-- **C5, counterexample.** When the external call raises, nothing is
cached, so two Generator calls with identical `(question, chunk, beats,
beat_index)` issue two external generation calls — more than the claimed
"at most one in total". -/
theorem c5_counterexample :
    ¬ ((generate_response (fun _ => none) []
          "same question repeated identically".toList
          ⟨"co".toList, "st".toList, "Beat 1: a".toList, [], "t".toList, [], 1⟩
          [⟨"co".toList, "st".toList, "Beat 1: a".toList, [],
            "This fallback sentence is long enough.".toList, []⟩] 0).calls
        + (generate_response (fun _ => none)
            (generate_response (fun _ => none) []
              "same question repeated identically".toList
              ⟨"co".toList, "st".toList, "Beat 1: a".toList, [], "t".toList, [], 1⟩
              [⟨"co".toList, "st".toList, "Beat 1: a".toList, [],
                "This fallback sentence is long enough.".toList, []⟩] 0).cache
            "same question repeated identically".toList
            ⟨"co".toList, "st".toList, "Beat 1: a".toList, [], "t".toList, [], 1⟩
            [⟨"co".toList, "st".toList, "Beat 1: a".toList, [],
              "This fallback sentence is long enough.".toList, []⟩] 0).calls ≤ 1) := by
  decide

/-- **C5, amended.** Provided the external generation call does not raise,
calling the Generator twice with identical `(question, active_chunk, beats,
beat_index)` issues at most one external call in total and returns identical
text both times; a cache hit returns the cached text with no external call.
(When the call raises nothing is cached, and a repeated identical call
issues another external call — the counterexample.) -/
theorem c5_cache_idempotent (llm : Str → Option Str) (cache : RespCache) (q : Str)
    (chunk : ScoredChunk) (beats : List BeatChunk) (bi : Nat) (hne : beats ≠ [])
    (hok : ∀ m, (llm m).isSome = true) :
    (generate_response llm (generate_response llm cache q chunk beats bi).cache
        q chunk beats bi).text
      = (generate_response llm cache q chunk beats bi).text ∧
    (generate_response llm cache q chunk beats bi).calls
      + (generate_response llm (generate_response llm cache q chunk beats bi).cache
          q chunk beats bi).calls ≤ 1 ∧
    (∀ t, cacheLookup cache
        (cacheKey q (beats.getD (min bi (beats.length - 1)) default).text) = some t →
      generate_response llm cache q chunk beats bi = ⟨t, cache, 0⟩) := by
  cases hc : cacheLookup cache
      (cacheKey q (beats.getD (min bi (beats.length - 1)) default).text) with
  | some t =>
    have h1 := generate_response_hit llm cache q chunk beats bi t hc
    refine ⟨?_, ?_, ?_⟩
    · rw [h1]
      show (generate_response llm cache q chunk beats bi).text = t
      rw [h1]
    · rw [h1]
      show (0 : Nat) + (generate_response llm cache q chunk beats bi).calls ≤ 1
      rw [h1]
      simp
    · intro t' ht'
      obtain rfl : t = t' := Option.some.inj ht'
      exact h1
  | none =>
    obtain ⟨v, hv⟩ := Option.isSome_iff_exists.mp (hok _)
    have h1 := generate_response_miss_some llm cache q chunk beats bi v hc hv
    have h2 : cacheLookup
        ((cacheKey q (beats.getD (min bi (beats.length - 1)) default).text, strip v) :: cache)
        (cacheKey q (beats.getD (min bi (beats.length - 1)) default).text)
        = some (strip v) := by
      simp [cacheLookup]
    have h3 := generate_response_hit llm
      ((cacheKey q (beats.getD (min bi (beats.length - 1)) default).text, strip v) :: cache)
      q chunk beats bi (strip v) h2
    refine ⟨?_, ?_, ?_⟩
    · rw [h1]
      show (generate_response llm
          ((cacheKey q (beats.getD (min bi (beats.length - 1)) default).text, strip v) :: cache)
          q chunk beats bi).text = strip v
      rw [h3]
    · rw [h1]
      show (1 : Nat) + (generate_response llm
          ((cacheKey q (beats.getD (min bi (beats.length - 1)) default).text, strip v) :: cache)
          q chunk beats bi).calls ≤ 1
      rw [h3]
      simp
    · intro t' ht'
      cases ht'

/-- The always-succeeding external call of the C5 witness. -/
def c5llm : Str → Option Str := fun _ => some "Open with the eval framework.".toList

/-- The C5 witness question. -/
def c5q : Str := "walk me through the eval framework you built".toList

/-- The C5 witness active chunk. -/
def c5chunk : ScoredChunk :=
  ⟨"Kunik".toList, "RAG accuracy".toList, "Beat 1: context".toList, [], "t".toList, [], 3⟩

/-- The C5 witness beats. -/
def c5beats : List BeatChunk :=
  [⟨"Kunik".toList, "RAG accuracy".toList, "Beat 1: context".toList, [],
    "Accuracy sat at 78 percent when we started.".toList, []⟩]

/-- Witness for C5: with a succeeding external call, the repeated identical
call returns the same text and the two calls issue one external call total. -/
theorem c5_cache_idempotent_witness :
    (generate_response c5llm (generate_response c5llm [] c5q c5chunk c5beats 0).cache
        c5q c5chunk c5beats 0).text
      = (generate_response c5llm [] c5q c5chunk c5beats 0).text ∧
    (generate_response c5llm [] c5q c5chunk c5beats 0).calls
      + (generate_response c5llm (generate_response c5llm [] c5q c5chunk c5beats 0).cache
          c5q c5chunk c5beats 0).calls ≤ 1 := by
  have h := c5_cache_idempotent c5llm [] c5q c5chunk c5beats 0 (by decide) (fun m => rfl)
  exact ⟨h.1, h.2.1⟩

/-- The C6 counterexample beats: one 26-character line without any terminal
punctuation. -/
def c6beats : List BeatChunk :=
  [⟨"co".toList, "st".toList, "Beat 1: a".toList, [],
    "abcdefghijklmnopqrstuvwxyz".toList, []⟩]

/-- The C6 counterexample active chunk. -/
def c6chunk : ScoredChunk :=
  ⟨"co".toList, "st".toList, "Beat 1: a".toList, [], "t".toList, [], 1⟩

/-- **C6, counterexample.** The external call raises, the beat's only line is
longer than 20 characters but has **no** terminal punctuation — so by the
claim the returned text should be empty; the code returns the whole line,
which is non-empty. -/
theorem c6_counterexample :
    ((splitOnChar '\n' (c6beats.getD 0 default).text).all
        (fun line => !(qualifying_line line && (strip line).any isPunct))) = true ∧
    (generate_response (fun _ => none) [] "what was hard about it exactly in practice?".toList
        c6chunk c6beats 0).text ≠ [] := by
  refine ⟨by decide, by decide⟩

/-- **C6, amended.** A raised external call never propagates (the Generator
is total and returns the local fallback), and — starting from an empty cache
— the returned text is exactly `_extract_fallback` of the current beat's
text: non-empty **iff** some line of the beat text survives the
header/probe/table filters and exceeds 20 characters, regardless of
punctuation (the fallback is that first qualifying line, truncated at its
first sentence boundary when it has one, else returned whole; if no line
qualifies the empty string is returned). -/
theorem c6_fallback_nonempty (llm : Str → Option Str) (q : Str) (chunk : ScoredChunk)
    (beats : List BeatChunk) (bi : Nat) (hne : beats ≠ []) (hfail : ∀ m, llm m = none) :
    (generate_response llm [] q chunk beats bi).text
      = extract_fallback (beats.getD (min bi (beats.length - 1)) default).text ∧
    ((generate_response llm [] q chunk beats bi).text ≠ [] ↔
      ∃ line ∈ splitOnChar '\n' (beats.getD (min bi (beats.length - 1)) default).text,
        qualifying_line line = true) := by
  have h1 := generate_response_miss_none llm [] q chunk beats bi rfl (hfail _)
  rw [h1]
  exact ⟨rfl, extract_fallback_ne_nil_iff _⟩

/-- Witness for C6, on the beats of the C5 witness (whose beat line does
qualify): the fallback equality conjunct, instantiated. -/
theorem c6_fallback_nonempty_witness :
    (generate_response (fun _ => none) [] "why did retrieval fail?".toList c6chunk c5beats 0).text
      = extract_fallback (c5beats.getD (min 0 (c5beats.length - 1)) default).text :=
  (c6_fallback_nonempty (fun _ => none) "why did retrieval fail?".toList c6chunk c5beats 0
    (by decide) (fun m => rfl)).1

/-! ### The truncated-prefix cache key (claim C9) -/

/-- First C9 question: 81 `a` characters. -/
def c9q1 : Str := List.replicate 81 'a'

/-- Second C9 question: the same first 80 characters, then a `b`. -/
def c9q2 : Str := List.replicate 80 'a' ++ ['b']

/-- Beats for the C9 collision run. -/
def c9beats : List BeatChunk :=
  [⟨"co".toList, "st".toList, "Beat 1: a".toList, [], "beat body text".toList, []⟩]

/-- Active chunk for the C9 collision run. -/
def c9chunk : ScoredChunk :=
  ⟨"co".toList, "st".toList, "Beat 1: a".toList, [], "t".toList, [], 1⟩

/-- External call answering the first C9 question. -/
def c9llmA : Str → Option Str := fun _ => some "Answer for the first question.".toList

/-- A distinguishable external call offered for the second C9 question: had
the Generator actually consulted it, the reply would have differed. -/
def c9llmB : Str → Option Str := fun _ => some "Answer for the second question.".toList

/-- **C9.** Two distinct questions agreeing on their first 80 characters
collide on the truncated-prefix cache key: after answering the first, the
Generator answers the second with the first question's cached reply and
issues no external call (the offered second external capability, which would
have produced a different reply, is never consulted). -/
theorem c9_cache_key_collision :
    c9q1 ≠ c9q2 ∧
    c9q1.take 80 = c9q2.take 80 ∧
    (generate_response c9llmA [] c9q1 c9chunk c9beats 0).text
      = strip "Answer for the first question.".toList ∧
    (generate_response c9llmB
        (generate_response c9llmA [] c9q1 c9chunk c9beats 0).cache c9q2 c9chunk c9beats 0).text
      = (generate_response c9llmA [] c9q1 c9chunk c9beats 0).text ∧
    (generate_response c9llmB
        (generate_response c9llmA [] c9q1 c9chunk c9beats 0).cache
        c9q2 c9chunk c9beats 0).calls = 0 := by
  decide

end SecondBrain
